import Mathlib

/-!
Verification of the ClawGate routing gateway against its specification.

The Lean definitions below are a shallow embedding of the Python source:
* `clawgate/router.py`   — `_extract_text`, `_estimate_tokens`, `Router`
* `clawgate/providers.py` — `ProviderHealth`, `_complete_google` request build
* `clawgate/metrics.py`  — `calc_cost`
* `clawgate/config.py`   — `_safe_db_path`

Python dictionaries are modelled as structures whose optional fields mirror
key presence; Python `None` (JSON null) in message content is modelled
explicitly; a Python `TypeError` raised while joining message contents is
modelled by returning `none` from `extract_text`.  Numbers (Python floats
and ints) are modelled as `ℚ`/`Nat`/`Int`.
-/

namespace ClawGate

/-- An element of a multimodal OpenAI content array: either a dict (whose
`text` field is absent or holds a string) or a non-dict element, which
`_extract_text` skips via its `isinstance(p, dict)` filter. -/
inductive ContentPart where
  | dict (text : Option String)
  | nondict
deriving DecidableEq

/-- The value of a message `content` field: a string, JSON null, or a
multimodal array. -/
inductive Content where
  | str (s : String)
  | null
  | arr (parts : List ContentPart)
deriving DecidableEq

/-- One OpenAI chat message.  `role`/`content` are `Option` because the
source reads both with `msg.get(...)`, i.e. the keys may be absent. -/
structure Msg where
  role : Option String
  content : Option Content
deriving DecidableEq

/-- A Python value that is either a `str` or `None`; the result of reading a
message content after `_extract_text` has flattened multimodal arrays. -/
inductive PyVal where
  | str (s : String)
  | null
deriving DecidableEq

/-- `sep.join(xs)` for a list of strings. -/
def joinSep (sep : String) : List String → String
  | [] => ""
  | [x] => x
  | x :: xs => x ++ sep ++ joinSep sep xs

/-- The generator `p.get("text", "") for p in content if isinstance(p, dict)`
from `_extract_text`. -/
def partTexts (ps : List ContentPart) : List String :=
  ps.filterMap fun p =>
    match p with
    | .dict t => some (t.getD "")
    | .nondict => none

/-- `content = msg.get("content", "")` followed by the
`isinstance(content, list)` flattening in `_extract_text`; a null content
stays `None`. -/
def contentVal (c : Option Content) : PyVal :=
  match c with
  | none => .str ""
  | some (.str s) => .str s
  | some .null => .null
  | some (.arr ps) => .str (joinSep " " (partTexts ps))

/-- `sep.join(vals)` over Python values: raises `TypeError` (modelled as
`none`) when any element is not a string. -/
def pyJoinVals (sep : String) (vals : List PyVal) : Option String :=
  (vals.mapM fun v =>
    match v with
    | PyVal.str s => (some s : Option String)
    | PyVal.null => none).map (joinSep sep)

/-- Accumulator of the single pass over `messages` in `_extract_text`. -/
structure ExtractAcc where
  system : PyVal
  lastUser : PyVal
  full : List PyVal
deriving DecidableEq

/-- One iteration of the `for msg in messages` loop in `_extract_text`. -/
def extractStep (acc : ExtractAcc) (m : Msg) : ExtractAcc :=
  let role := m.role.getD ""
  let c := contentVal m.content
  let acc1 :=
    if role = "system" then { acc with system := c }
    else if role = "user" then { acc with lastUser := c }
    else acc
  { acc1 with full := acc1.full ++ [c] }

/-- `_extract_text(messages)` from `clawgate/router.py`.  Returns
`(system, last_user, full_text)`; returns `none` when the final
`"\n".join(full)` raises `TypeError` (some content was null).  When the join
succeeds every element of `full` — hence also the recorded system and last
user values, which are always elements of `full` or the initial `""` — is a
string, so the string-typed result loses nothing. -/
def extract_text (messages : List Msg) : Option (String × String × String) :=
  let acc := messages.foldl extractStep ⟨.str "", .str "", []⟩
  match pyJoinVals "\n" acc.full, acc.system, acc.lastUser with
  | some full, .str sys, .str lu => some (sys, lu, full)
  | _, _, _ => none

/-- `_estimate_tokens(text)`: `max(1, len(text) // 4)`. -/
def estimate_tokens (text : String) : Nat :=
  max 1 (text.length / 4)

/-- Accumulator of the message loop in `_complete_google`
(`clawgate/providers.py`): the `contents` list of `(role, text)` pairs and
the last-assigned `system_instruction`.  Note the Google path performs NO
multimodal flattening and NO null conversion: the raw content value (with
`""` only for an absent key) lands in the `text` field of each part. -/
structure GoogleAcc where
  contents : List (String × Content)
  systemInstr : Option Content
deriving DecidableEq

/-- One iteration of the `for msg in messages` loop in `_complete_google`. -/
def googleStep (acc : GoogleAcc) (m : Msg) : GoogleAcc :=
  let role := m.role.getD "user"
  let text := m.content.getD (.str "")
  if role = "system" then { acc with systemInstr := some text }
  else if role = "assistant" then { acc with contents := acc.contents ++ [("model", text)] }
  else { acc with contents := acc.contents ++ [("user", text)] }

/-- The `contents` array built by `_complete_google`. -/
def googleContents (messages : List Msg) : List (String × Content) :=
  (messages.foldl googleStep ⟨[], none⟩).contents

/-- The `system_instruction` value held after the `_complete_google` loop. -/
def googleSystemInstruction (messages : List Msg) : Option Content :=
  (messages.foldl googleStep ⟨[], none⟩).systemInstr

/-- Python truthiness of a content value (used by
`if system_instruction:`). -/
def contentTruthy : Content → Bool
  | .str s => !(s == "")
  | .null => false
  | .arr ps => !ps.isEmpty

/-- Every value serialized into a `parts[*].text` field of the Google
request body built by `_complete_google`: the texts of `contents` plus, when
truthy, the `systemInstruction` part. -/
def googleBodyParts (messages : List Msg) : List Content :=
  (googleContents messages).map Prod.snd ++
    (match googleSystemInstruction messages with
     | some si => if contentTruthy si then [si] else []
     | none => [])

/-- Whether a serialized `text` field holds a string (the invariant the spec
demands of every produced part). -/
def isStringContent : Content → Bool
  | .str _ => true
  | _ => false

/-- Python `s.lower()` (restricted to the character-wise case mapping). -/
def pyLower (s : String) : String := ⟨s.data.map Char.toLower⟩

/-- Python `s.strip()`: drop leading and trailing whitespace. -/
def pyStrip (s : String) : String :=
  ⟨((s.data.dropWhile Char.isWhitespace).reverse.dropWhile Char.isWhitespace).reverse⟩

/-- Python `s.startswith(pre)`. -/
def pyStartsWith (s pre : String) : Bool := pre.data.isPrefixOf s.data

/-- Substring search on character lists. -/
def substrAux (needle : List Char) : List Char → Bool
  | [] => needle.isEmpty
  | c :: rest => needle.isPrefixOf (c :: rest) || substrAux needle rest

/-- Python `needle in hay` on strings: substring containment. -/
def pyContains (hay needle : String) : Bool := substrAux needle.data hay.data

/-- A health dict as passed in `provider_health` snapshots; only the boolean
fields matter to the router (`healthy`).  Python dict truthiness is list
non-emptiness. -/
abbrev HealthDict := List (String × Bool)

/-- `d.get(key, dflt)` on a health dict. -/
def hdGet (h : HealthDict) (key : String) (dflt : Bool) : Bool :=
  (h.lookup key).getD dflt

/-- `RoutingDecision` from `clawgate/router.py` (floats as `ℚ`). -/
structure RoutingDecision where
  provider_name : String
  layer : String
  rule_name : String
  confidence : ℚ
  reason : String
  elapsed_ms : ℚ
deriving DecidableEq

/-- `_RoutingContext`: the request features extracted once per `route`
call.  Headers and the provider-health snapshot are association lists. -/
structure RoutingContext where
  system_prompt : String
  last_user_message : String
  full_text : String
  total_tokens : Nat
  model_requested : String
  has_tools : Bool
  headers : List (String × String)
  provider_health : List (String × HealthDict)
deriving DecidableEq

/-- A static `match` block.  `anyOf` mirrors the `any` key;
`model_requested` is the pattern list after the `isinstance(str)`
normalization; the `Option`s record key presence (needed for the
`match.keys() == ...` single-key checks).  Unknown extra keys are not
modelled. -/
inductive StaticMatch where
  | node (anyOf : Option (List StaticMatch))
         (model_requested : Option (List String))
         (system_prompt_contains : Option (List String))
         (header_contains : Option (List (String × List String)))

/-- The non-recursive tail of `_match_static` (everything after the `any`
branch; in that code path the `any` key is absent). -/
def matchStaticFields (ctx : RoutingContext) (mr spc : Option (List String))
    (hc : Option (List (String × List String))) : Bool :=
  let mrHit :=
    match mr with
    | some ps => ps.any fun p => pyContains ctx.model_requested p
    | none => false
  if mr.isSome && mrHit then true
  else if mr.isSome && spc.isNone && hc.isNone then false
  else
    let lowerSys := pyLower ctx.system_prompt
    let sysHit :=
      match spc with
      | some kws => kws.any fun kw => pyContains lowerSys (pyLower kw)
      | none => false
    if spc.isSome && sysHit then true
    else if spc.isSome && mr.isNone && hc.isNone then false
    else
      match hc with
      | some entries =>
          entries.any fun e =>
            let headerVal := pyLower ((ctx.headers.lookup e.1).getD "")
            e.2.any fun p => pyContains headerVal (pyLower p)
      | none => false

mutual
/-- `Router._match_static`. -/
def match_static (ctx : RoutingContext) : StaticMatch → Bool
  | .node (some subs) _ _ _ => matchStaticAny ctx subs
  | .node none mr spc hc => matchStaticFields ctx mr spc hc

/-- `any(self._match_static(sub, ctx) for sub in match["any"])`. -/
def matchStaticAny (ctx : RoutingContext) : List StaticMatch → Bool
  | [] => false
  | m :: ms => match_static ctx m || matchStaticAny ctx ms
end

/-- The `estimated_tokens` sub-dict of a heuristic match. -/
structure TokMatch where
  less_than : Option Int
  greater_than : Option Int
deriving DecidableEq

/-- The `message_keywords` sub-dict of a heuristic match; `any_of` is read
with `.get("any_of", [])` so an absent key equals `[]`; `min_matches` is
read with `.get("min_matches", 1)`. -/
structure KwMatch where
  any_of : List String
  min_matches : Option Int
deriving DecidableEq

/-- A heuristic `match` block.  `fallthrough` models the truthiness of
`match.get("fallthrough")` (absent key is falsy). -/
structure HeuristicMatch where
  fallthrough : Bool
  has_tools : Option Bool
  estimated_tokens : Option TokMatch
  message_keywords : Option KwMatch
deriving DecidableEq

/-- `Router._match_heuristic`. -/
def match_heuristic (ctx : RoutingContext) (m : HeuristicMatch) : Bool :=
  if m.fallthrough then true
  else
    match m.has_tools with
    | some b => b == ctx.has_tools
    | none =>
      match m.estimated_tokens with
      | some tm =>
          (match tm.less_than with
           | some n => decide ((ctx.total_tokens : Int) < n)
           | none => false) ||
          (match tm.greater_than with
           | some n => decide ((ctx.total_tokens : Int) > n)
           | none => false)
      | none =>
        match m.message_keywords with
        | some kw =>
            let searchText := pyLower ctx.last_user_message
            let hits := (kw.any_of.filter fun k => pyContains searchText (pyLower k)).length
            decide ((hits : Int) ≥ kw.min_matches.getD 1)
        | none => false

/-- A static rule: `name`, `route_to` and its `match` block. -/
structure StaticRule where
  name : String
  route_to : String
  smatch : StaticMatch

/-- A heuristic rule. -/
structure HeuristicRule where
  name : String
  route_to : String
  hmatch : HeuristicMatch
deriving DecidableEq

/-- The slice of the parsed configuration that `Router` reads. -/
structure Config where
  fallback_chain : List String
  static_enabled : Bool
  static_rules : List StaticRule
  heuristic_enabled : Bool
  heuristic_rules : List HeuristicRule
  llm_enabled : Bool

/-- `Router._layer_static`: first static rule whose match block evaluates
true. -/
def layer_static (cfg : Config) (ctx : RoutingContext) : Option RoutingDecision :=
  if !cfg.static_enabled then none
  else
    (cfg.static_rules.find? fun r => match_static ctx r.smatch).map fun r =>
      { provider_name := r.route_to
        layer := "static"
        rule_name := r.name
        confidence := 1
        reason := "Static rule \x27" ++ r.name ++ "\x27 matched"
        elapsed_ms := 0 }

/-- `Router._layer_heuristic`. -/
def layer_heuristic (cfg : Config) (ctx : RoutingContext) : Option RoutingDecision :=
  if !cfg.heuristic_enabled then none
  else
    (cfg.heuristic_rules.find? fun r => match_heuristic ctx r.hmatch).map fun r =>
      { provider_name := r.route_to
        layer := "heuristic"
        rule_name := r.name
        confidence := 0.8
        reason := "Heuristic rule \x27" ++ r.name ++ "\x27 matched"
        elapsed_ms := 0 }

/-- The `for fallback in self.config.fallback_chain` loop inside
`Router._validate_health`. -/
def walkChain (ph : List (String × HealthDict)) (d : RoutingDecision) :
    List String → RoutingDecision
  | [] => d
  | fb :: rest =>
      let fbHealth := (ph.lookup fb).getD []
      if hdGet fbHealth "healthy" true && (fb != d.provider_name) then
        { provider_name := fb
          layer := d.layer
          rule_name := d.rule_name ++ "→fallback"
          confidence := d.confidence * 0.8
          reason := d.reason ++ " (primary unhealthy, fell to " ++ fb ++ ")"
          elapsed_ms := d.elapsed_ms }
      else walkChain ph d rest

/-- `Router._validate_health`: fall through the chain only when the chosen
provider has a non-empty (truthy) health dict whose `healthy` (default
`True`) is `False`. -/
def validate_health (chain : List String) (ph : List (String × HealthDict))
    (d : RoutingDecision) : RoutingDecision :=
  match ph.lookup d.provider_name with
  | some h =>
      if h ≠ [] ∧ hdGet h "healthy" true = false then walkChain ph d chain
      else d
  | none => d

/-- The `_RoutingContext` record that `Router.route` builds from the
extracted texts. -/
def routeContext (sys lu full : String) (model_requested : String)
    (has_tools : Bool) (headers : List (String × String))
    (provider_health : List (String × HealthDict)) : RoutingContext :=
  { system_prompt := sys
    last_user_message := lu
    full_text := full
    total_tokens := estimate_tokens full
    model_requested := pyStrip (pyLower model_requested)
    has_tools := has_tools
    headers := headers
    provider_health := provider_health }

/-- `Router.route`.  `none` models a raised exception (from
`_extract_text`).  The LLM-classifier layer is omitted: `route` constructs
its context without a classify callback (nothing ever sets
`ctx._classify_fn`), so `_layer_llm_classify` always returns `None`.
`elapsed_ms` timing is modelled as `0`. -/
def route (cfg : Config) (messages : List Msg) (model_requested : String)
    (has_tools : Bool) (headers : List (String × String))
    (provider_health : List (String × HealthDict)) : Option RoutingDecision :=
  match extract_text messages with
  | none => none
  | some (sys, lu, full) =>
    let ctx := routeContext sys lu full model_requested has_tools headers provider_health
    match layer_static cfg ctx with
    | some d => some (validate_health cfg.fallback_chain provider_health d)
    | none =>
      match layer_heuristic cfg ctx with
      | some d => some (validate_health cfg.fallback_chain provider_health d)
      | none =>
          some { provider_name := cfg.fallback_chain.headD "deepseek-chat"
                 layer := "fallback"
                 rule_name := "no-match"
                 confidence := 0.3
                 reason := "No routing layer matched, using first fallback"
                 elapsed_ms := 0 }

/-- A pricing dict from the provider configuration; fields are `Option`
because the source reads them with `pricing.get(..., 0)` /
`pricing.get("cache_read", pricing.get("input", 0))`. -/
structure Pricing where
  input : Option ℚ
  output : Option ℚ
  cache_read : Option ℚ
deriving DecidableEq

/-- `calc_cost` from `clawgate/metrics.py` (floats as `ℚ`).  The
`if cache_hit or cache_miss:` test is Python number truthiness, i.e.
non-zero. -/
def calc_cost (prompt_tokens completion_tokens : ℚ) (pricing : Pricing)
    (cache_hit cache_miss : ℚ) : ℚ :=
  let out := pricing.output.getD 0
  let input_cost :=
    if cache_hit ≠ 0 ∨ cache_miss ≠ 0 then
      let cache_rate := pricing.cache_read.getD (pricing.input.getD 0)
      let miss_rate := pricing.input.getD 0
      (cache_hit * cache_rate + cache_miss * miss_rate) / 1000000
    else (prompt_tokens * pricing.input.getD 0) / 1000000
  input_cost + completion_tokens * out / 1000000

/-- `ProviderHealth` from `clawgate/providers.py` (floats as `ℚ`;
`_latencies` is the latency ring). -/
structure ProviderHealth where
  name : String
  healthy : Bool
  consecutive_failures : Nat
  last_check : ℚ
  last_error : String
  avg_latency_ms : ℚ
  latencies : List ℚ
deriving DecidableEq

/-- The dataclass defaults: `healthy=True`, `consecutive_failures=0`, empty
ring. -/
def initHealth (name : String) : ProviderHealth :=
  { name := name, healthy := true, consecutive_failures := 0, last_check := 0
    last_error := "", avg_latency_ms := 0, latencies := [] }

/-- `ProviderHealth.record_success` (`time.time()` passed in as `now`).
`self._latencies[-20:]` keeps the last 20 entries. -/
def record_success (h : ProviderHealth) (latency_ms now : ℚ) : ProviderHealth :=
  let ls0 := h.latencies ++ [latency_ms]
  let ls := if ls0.length > 20 then ls0.drop (ls0.length - 20) else ls0
  { h with healthy := true
           consecutive_failures := 0
           last_check := now
           last_error := ""
           latencies := ls
           avg_latency_ms := ls.sum / (ls.length : ℚ) }

/-- `ProviderHealth.record_failure` with explicit `max_failures`
(defaulting to 3 at every call site in the source). -/
def record_failure (h : ProviderHealth) (error : String) (now : ℚ)
    (max_failures : Nat) : ProviderHealth :=
  let cf := h.consecutive_failures + 1
  { h with consecutive_failures := cf
           last_check := now
           last_error := error
           healthy := if cf ≥ max_failures then false else h.healthy }

/-- One mutation of a `ProviderHealth` record. -/
inductive HealthOp where
  | success (latency_ms now : ℚ)
  | failure (error : String) (now : ℚ)
deriving DecidableEq

/-- Apply one operation; every `record_failure` uses the fixed threshold
`t`. -/
def applyHealthOp (t : Nat) (h : ProviderHealth) : HealthOp → ProviderHealth
  | .success l n => record_success h l n
  | .failure e n => record_failure h e n t

/-- Run a sequence of health operations. -/
def runHealthOps (t : Nat) (h : ProviderHealth) (ops : List HealthOp) :
    ProviderHealth :=
  ops.foldl (applyHealthOp t) h

/-- The invariants of §3 of the spec: threshold-reached implies unhealthy,
and the latency ring holds at most 20 entries. -/
def healthInv (t : Nat) (h : ProviderHealth) : Prop :=
  (t ≤ h.consecutive_failures → h.healthy = false) ∧ h.latencies.length ≤ 20

/-- The environment variables `_safe_db_path` consults.  `home` is
`Path.home()`. -/
structure Env where
  clawgate_db_path : Option String
  xdg_data_home : Option String
  home : String
deriving DecidableEq

/-- `os.environ.get(name, "")`. -/
def envGet (v : Option String) : String := v.getD ""

/-- `_safe_db_path(configured)` from `clawgate/config.py`.  `Path` joins
are modelled as `/`-separated concatenation.  `Config.metrics` patches
exactly this value into the returned dict as `db_path`, so this function
is the effective metrics DB path resolution. -/
def safe_db_path (env : Env) (configured : Option String) : String :=
  let env_path := pyStrip (envGet env.clawgate_db_path)
  if env_path ≠ "" then env_path
  else
    let keep : Option String :=
      match configured with
      | some c =>
          if c ≠ "" then
            let p := pyStrip c
            if p ≠ "" ∧ ¬pyStartsWith p "./clawgate.db" ∧ p ≠ "clawgate.db"
            then some p else none
          else none
      | none => none
    match keep with
    | some p => p
    | none =>
      let xdg := pyStrip (envGet env.xdg_data_home)
      if xdg ≠ "" then xdg ++ "/clawgate/clawgate.db"
      else env.home ++ "/.local/share/clawgate/clawgate.db"

/-- Spec-side characterization: the (flattened) content of the LAST
system-role message, `""` when there is none.  Used to state what
`_extract_text` actually records as the system prompt. -/
def lastSystemContent (messages : List Msg) : PyVal :=
  match messages.reverse.find? (fun m => m.role.getD "" = "system") with
  | some m => contentVal m.content
  | none => .str ""

/-- Spec-side characterization: the first member of the fallback chain whose
health snapshot is healthy (missing entries count as healthy) and that
differs from the given provider name. -/
def first_healthy_fallback (chain : List String) (ph : List (String × HealthDict))
    (nm : String) : Option String :=
  chain.find? fun fb => hdGet ((ph.lookup fb).getD []) "healthy" true && (fb != nm)

-- ── Helper lemmas ──────────────────────────────────────────────

theorem find?_append_left {α : Type} (p : α → Bool) (l1 l2 : List α) (x : α)
    (h : l1.find? p = some x) : (l1 ++ l2).find? p = some x := by
  induction l1 with
  | nil => simp [List.find?] at h
  | cons a l ih =>
    by_cases hp : p a = true
    · rw [List.find?_cons_of_pos _ hp] at h
      simpa [List.find?_cons_of_pos _ hp] using h
    · rw [List.find?_cons_of_neg _ (by simpa using hp)] at h
      simpa [List.find?_cons_of_neg _ (by simpa using hp)] using ih h

theorem find?_append_right {α : Type} (p : α → Bool) (l1 l2 : List α)
    (h : l1.find? p = none) : (l1 ++ l2).find? p = l2.find? p := by
  induction l1 with
  | nil => simp
  | cons a l ih =>
    by_cases hp : p a = true
    · rw [List.find?_cons_of_pos _ hp] at h; exact absurd h (by simp)
    · rw [List.find?_cons_of_neg _ (by simpa using hp)] at h
      simpa [List.find?_cons_of_neg _ (by simpa using hp)] using ih h

/-- The `system` slot of the extraction fold is the overwrite fold of
system-role contents. -/
theorem foldl_extract_system (messages : List Msg) (acc : ExtractAcc) :
    (messages.foldl extractStep acc).system =
      messages.foldl
        (fun s m => if m.role.getD "" = "system" then contentVal m.content else s)
        acc.system := by
  induction messages generalizing acc with
  | nil => rfl
  | cons m ms ih =>
    simp only [List.foldl_cons, ih]
    congr 1
    by_cases hs : m.role.getD "" = "system"
    · simp [extractStep, hs]
    · by_cases hu : m.role.getD "" = "user" <;> simp [extractStep, hs, hu]

/-- The overwrite fold picks the last matching element. -/
theorem foldl_pick_last (messages : List Msg) (s0 : PyVal) :
    messages.foldl
        (fun s m => if m.role.getD "" = "system" then contentVal m.content else s)
        s0 =
      match messages.reverse.find? (fun m => m.role.getD "" = "system") with
      | some m => contentVal m.content
      | none => s0 := by
  induction messages generalizing s0 with
  | nil => rfl
  | cons m ms ih =>
    simp only [List.foldl_cons, List.reverse_cons]
    rw [ih]
    rcases hf : ms.reverse.find? (fun m => m.role.getD "" = "system") with _ | m2
    · simp only [hf, find?_append_right _ _ _ hf]
      by_cases hs : m.role.getD "" = "system" <;>
        simp [List.find?, hs]
    · simp only [hf, find?_append_left _ _ _ _ hf]

/-- When `extract_text` succeeds, the recorded system value is the `system`
slot of the fold. -/
theorem extract_text_system_eq (messages : List Msg) (sys lu full : String)
    (h : extract_text messages = some (sys, lu, full)) :
    (messages.foldl extractStep ⟨.str "", .str "", []⟩).system = .str sys := by
  simp only [extract_text] at h
  split at h
  · rename_i heq1 heq2 heq3
    cases h
    exact heq2
  · cases h

/-- `walkChain` returns the decision rewritten to the first healthy distinct
chain member, or the original decision when none exists. -/
theorem walkChain_eq_first_healthy (ph : List (String × HealthDict))
    (d : RoutingDecision) (chain : List String) :
    walkChain ph d chain =
      match first_healthy_fallback chain ph d.provider_name with
      | some fb =>
          { provider_name := fb
            layer := d.layer
            rule_name := d.rule_name ++ "→fallback"
            confidence := d.confidence * 0.8
            reason := d.reason ++ " (primary unhealthy, fell to " ++ fb ++ ")"
            elapsed_ms := d.elapsed_ms }
      | none => d := by
  induction chain with
  | nil => rfl
  | cons fb rest ih =>
    by_cases hc : (hdGet ((ph.lookup fb).getD []) "healthy" true && (fb != d.provider_name)) = true
    · simp [walkChain, first_healthy_fallback, List.find?_cons_of_pos _ hc, hc]
    · simp only [walkChain, first_healthy_fallback] at ih ⊢
      rw [List.find?_cons_of_neg _ (by simpa using hc), if_neg (by simpa using hc)]
      exact ih

/-- Single-step preservation of the health invariants (threshold ≥ 1). -/
theorem healthInv_step (t : Nat) (ht : 1 ≤ t) (h : ProviderHealth) (op : HealthOp)
    (hh : healthInv t h) : healthInv t (applyHealthOp t h op) := by
  obtain ⟨h1, h2⟩ := hh
  cases op with
  | success l n =>
    constructor
    · intro hle
      simp only [applyHealthOp, record_success] at hle
      omega
    · simp only [applyHealthOp, record_success]
      by_cases hlen : (h.latencies ++ [l]).length > 20
      · rw [if_pos hlen, List.length_drop]
        omega
      · rw [if_neg hlen]
        omega
  | failure e n =>
    constructor
    · intro hle
      simp only [applyHealthOp, record_failure] at hle ⊢
      split
      · rfl
      · rename_i hlt
        exact absurd hle (by omega)
    · simpa [applyHealthOp, record_failure] using h2

/-- A heuristic rule whose match block consists of `message_keywords` alone
(no `fallthrough`, `has_tools` or `estimated_tokens` key). -/
def isPureKwRule (r : HeuristicRule) : Bool :=
  r.hmatch.fallthrough == false && r.hmatch.has_tools.isNone
    && r.hmatch.estimated_tokens.isNone && r.hmatch.message_keywords.isSome

theorem find?_filter_of_false {α : Type} (p q : α → Bool) (l : List α)
    (h : ∀ x ∈ l, q x = false → p x = false) :
    l.find? p = (l.filter q).find? p := by
  induction l with
  | nil => rfl
  | cons a tl ih =>
    have htl : ∀ x ∈ tl, q x = false → p x = false :=
      fun x hx => h x (List.mem_cons_of_mem a hx)
    by_cases hq : q a = true
    · rw [List.filter_cons_of_pos hq]
      by_cases hp : p a = true
      · rw [List.find?_cons_of_pos _ hp, List.find?_cons_of_pos _ hp]
      · rw [List.find?_cons_of_neg _ (by simpa using hp),
          List.find?_cons_of_neg _ (by simpa using hp)]
        exact ih htl
    · have hpa : p a = false := h a (List.mem_cons_self a tl) (by simpa using hq)
      rw [List.filter_cons_of_neg (by simpa using hq),
        List.find?_cons_of_neg _ (by simp [hpa])]
      exact ih htl

/-- Core of claim C5: a pure `message_keywords` match block evaluates false
whenever the lowercased last user message contains none of its keywords and
its `min_matches` (default 1) is at least 1 — the system prompt plays no
role. -/
theorem pure_kw_match_false (ctx : RoutingContext) (kw : KwMatch)
    (hmin : 1 ≤ kw.min_matches.getD 1)
    (hmiss : ∀ k ∈ kw.any_of,
      pyContains (pyLower ctx.last_user_message) (pyLower k) = false) :
    match_heuristic ctx ⟨false, none, none, some kw⟩ = false := by
  have hnil : (kw.any_of.filter fun k =>
      pyContains (pyLower ctx.last_user_message) (pyLower k)) = [] := by
    rw [List.filter_eq_nil_iff]
    intro k hk
    simp [hmiss k hk]
  simp only [match_heuristic, hnil]
  simp only [List.length_nil, Nat.cast_zero, if_false, Bool.false_eq_true,
    decide_eq_false_iff_not, not_le]
  omega

/-- The hypothesis of the route-level part of C5: every pure
`message_keywords` rule has `min_matches ≥ 1` and all its keywords miss the
given last user message. -/
def kwRulesMiss (rules : List HeuristicRule) (lu : String) : Prop :=
  ∀ r ∈ rules, ∀ kw, r.hmatch = ⟨false, none, none, some kw⟩ →
    1 ≤ kw.min_matches.getD 1
    ∧ ∀ k ∈ kw.any_of, pyContains (pyLower lu) (pyLower k) = false

/-- Removing the pure `message_keywords` rules from the configuration does
not change the heuristic layer when they all miss. -/
theorem layer_heuristic_drop_kw_rules (cfg : Config) (ctx : RoutingContext)
    (hmiss : kwRulesMiss cfg.heuristic_rules ctx.last_user_message) :
    layer_heuristic
        { cfg with heuristic_rules :=
            cfg.heuristic_rules.filter fun r => !isPureKwRule r } ctx =
      layer_heuristic cfg ctx := by
  have hall : ∀ r ∈ cfg.heuristic_rules, (!isPureKwRule r) = false →
      match_heuristic ctx r.hmatch = false := by
    intro r hr hq
    have hpure : isPureKwRule r = true := by simpa using hq
    rcases hm : r.hmatch with ⟨ft, hts, est, mk⟩
    simp only [isPureKwRule, hm, Bool.and_eq_true, beq_iff_eq,
      Option.isNone_iff_eq_none, Option.isSome_iff_exists] at hpure
    obtain ⟨⟨⟨h1, h2⟩, h3⟩, kw, h4⟩ := hpure
    have hform : r.hmatch = ⟨false, none, none, some kw⟩ := by
      rw [hm, h1, h2, h3, h4]
    obtain ⟨hmin, hk⟩ := hmiss r hr kw hform
    rw [h1, h2, h3, h4]
    exact pure_kw_match_false ctx kw hmin hk
  unfold layer_heuristic
  by_cases he : cfg.heuristic_enabled
  · simp only [he, Bool.not_true, Bool.false_eq_true, if_false]
    rw [← find?_filter_of_false (fun r => match_heuristic ctx r.hmatch)
      (fun r => !isPureKwRule r) cfg.heuristic_rules hall]
  · simp only [Bool.not_eq_true] at he
    simp [he]

-- ── Claim theorems ─────────────────────────────────────────────

/-- Claim C1.  The code violates the null-content tolerance invariant
(while the repository test suite asserts it): with `content: null` on a
system message, `_extract_text` — hence `Router.route` — raises a
`TypeError` at `"\n".join(full)` (modelled as `none`), and
`_complete_google` serializes a Google part whose `text` field is null
rather than a string. -/
theorem null_content_crashes_routing_and_google :
    extract_text
        [⟨some "system", some Content.null⟩, ⟨some "user", some (.str "ping")⟩] = none
    ∧ route ⟨[], false, [], false, [], false⟩
        [⟨some "system", some Content.null⟩, ⟨some "user", some (.str "ping")⟩]
        "auto" false [] [] = none
    ∧ (googleBodyParts
        [⟨some "user", some (.str "use the tool")⟩,
         ⟨some "assistant", some Content.null⟩,
         ⟨some "user", some (.str "ok now answer")⟩]).all isStringContent = false :=
  ⟨rfl, rfl, rfl⟩

/-- Claim C2, counterexample.  With two system messages `"a"` and `"b"`,
the extracted system prompt is `"b"` — the last one — and not their
concatenation (under any of the plausible separators). -/
theorem system_concat_counterexample :
    extract_text
        [⟨some "system", some (.str "a")⟩, ⟨some "system", some (.str "b")⟩,
         ⟨some "user", some (.str "u")⟩] = some ("b", "u", "a\nb\nu")
    ∧ ("b" : String) ≠ "ab" ∧ ("b" : String) ≠ "a b" ∧ ("b" : String) ≠ "a\nb" :=
  ⟨rfl, by decide, by decide, by decide⟩

/-- Claim C2, amended.  The routing context's system-prompt text is the
(flattened) content of the LAST system-role message of the list — earlier
system messages are overwritten, not concatenated. -/
theorem system_prompt_is_last_system_message (messages : List Msg)
    (sys lu full : String) (h : extract_text messages = some (sys, lu, full)) :
    PyVal.str sys = lastSystemContent messages := by
  have h1 := extract_text_system_eq messages sys lu full h
  rw [foldl_extract_system, foldl_pick_last] at h1
  unfold lastSystemContent
  exact h1.symm

/-- Witness for the amended C2 theorem at a concrete two-system-message
list. -/
theorem system_prompt_is_last_system_message_witness :
    PyVal.str "b" = lastSystemContent
      [⟨some "system", some (.str "a")⟩, ⟨some "system", some (.str "b")⟩,
       ⟨some "user", some (.str "u")⟩] :=
  system_prompt_is_last_system_message _ "b" "u" "a\nb\nu" rfl

/-- Claim C3, counterexample.  A configured relative path other than
`./clawgate.db` passes the guard untouched, so the effective metrics path
CAN start with `./` even though the environment does not override it. -/
theorem db_path_dot_slash_counterexample :
    safe_db_path ⟨none, none, "/home/user"⟩ (some "./other.db") = "./other.db"
    ∧ pyStartsWith "./other.db" "./" = true :=
  ⟨by decide, by decide⟩

/-- Claim C3, amended.  Without an environment override, a configured value
equal to bare `clawgate.db` or starting with `./clawgate.db` is rejected in
favour of the platform default (the value resolved with no configured
path); other configured paths — including relative `./`-paths — are
returned as-is. -/
theorem db_path_rejects_clawgate_db (env : Env) (configured : String)
    (henv : pyStrip (envGet env.clawgate_db_path) = "")
    (hrej : pyStrip configured = "clawgate.db"
            ∨ pyStartsWith (pyStrip configured) "./clawgate.db" = true) :
    safe_db_path env (some configured) = safe_db_path env none := by
  have hA : ¬(¬pyStrip configured = ""
                ∧ pyStartsWith (pyStrip configured) "./clawgate.db" = false
                ∧ ¬pyStrip configured = "clawgate.db") := by
    rcases hrej with h | h
    · exact fun hc => hc.2.2 h
    · exact fun hc => by
        rw [h] at hc
        exact absurd hc.2.1 (by simp)
  by_cases hc : configured = ""
  · simp [safe_db_path, henv, hc]
  · simp [safe_db_path, henv, hc]
    rw [if_neg hA]

/-- Witness for the amended C3 theorem: a configured `./clawgate.db` is
replaced by the XDG default. -/
theorem db_path_rejects_clawgate_db_witness :
    pyStrip (envGet (Env.mk none (some "/xdg/data") "/home/u").clawgate_db_path) = ""
    ∧ safe_db_path ⟨none, some "/xdg/data", "/home/u"⟩ (some "./clawgate.db")
        = safe_db_path ⟨none, some "/xdg/data", "/home/u"⟩ none :=
  ⟨by decide, db_path_rejects_clawgate_db _ "./clawgate.db" (by decide) (Or.inr (by decide))⟩

/-- Claim C4.  When the chosen provider's snapshot is a non-empty dict
reporting `healthy = false`, health validation returns the first healthy
(or unlisted) chain member different from the choice, preserving the layer,
multiplying confidence by 0.8, suffixing the rule name with `→fallback` and
annotating the reason; when no such member exists the original decision is
returned unchanged. -/
theorem validate_health_unhealthy_falls_forward (chain : List String)
    (ph : List (String × HealthDict)) (d : RoutingDecision) (h : HealthDict)
    (hlook : ph.lookup d.provider_name = some h) (hne : h ≠ [])
    (hunh : hdGet h "healthy" true = false) :
    (∀ fb, first_healthy_fallback chain ph d.provider_name = some fb →
      validate_health chain ph d =
        { provider_name := fb
          layer := d.layer
          rule_name := d.rule_name ++ "→fallback"
          confidence := d.confidence * 0.8
          reason := d.reason ++ " (primary unhealthy, fell to " ++ fb ++ ")"
          elapsed_ms := d.elapsed_ms })
    ∧ (first_healthy_fallback chain ph d.provider_name = none →
      validate_health chain ph d = d) := by
  have hw := walkChain_eq_first_healthy ph d chain
  constructor
  · intro fb hfb
    rw [hfb] at hw
    simp only [validate_health, hlook]
    rw [if_pos ⟨hne, hunh⟩]
    exact hw
  · intro hnone
    rw [hnone] at hw
    simp only [validate_health, hlook]
    rw [if_pos ⟨hne, hunh⟩]
    exact hw

/-- Witness for C4 at a concrete unhealthy primary with a healthy chain
member. -/
theorem validate_health_unhealthy_falls_forward_witness :
    validate_health ["a", "b"]
        [("a", [("healthy", false)]), ("b", [("healthy", true)])]
        ⟨"a", "static", "r", 1, "matched", 0⟩ =
      { provider_name := "b"
        layer := "static"
        rule_name := "r" ++ "→fallback"
        confidence := 1 * 0.8
        reason := "matched" ++ " (primary unhealthy, fell to " ++ "b" ++ ")"
        elapsed_ms := 0 } :=
  (validate_health_unhealthy_falls_forward ["a", "b"]
      [("a", [("healthy", false)]), ("b", [("healthy", true)])]
      ⟨"a", "static", "r", 1, "matched", 0⟩ [("healthy", false)]
      rfl (by decide) rfl).1 "b" rfl

/-- Claim C5.  Keyword hits are counted only in the last user message:
(1) whatever the system prompt (and the rest of the context) contains, a
pure `message_keywords` rule whose `any_of` keywords all miss the
lowercased last user message (with `min_matches`, default 1, at least 1)
does not match; and (2) consequently routing is unaffected by such rules —
`route` returns the same decision as it does with every pure
`message_keywords` rule deleted from the configuration, so the chosen
provider is never chosen by such a rule. -/
theorem message_keywords_scored_on_last_user_only :
    (∀ (ctx : RoutingContext) (kw : KwMatch), 1 ≤ kw.min_matches.getD 1 →
      (∀ k ∈ kw.any_of,
        pyContains (pyLower ctx.last_user_message) (pyLower k) = false) →
      match_heuristic ctx ⟨false, none, none, some kw⟩ = false)
    ∧ ∀ (cfg : Config) (messages : List Msg) (mr : String) (ht : Bool)
        (hdrs : List (String × String)) (ph : List (String × HealthDict))
        (sys lu full : String),
        extract_text messages = some (sys, lu, full) →
        kwRulesMiss cfg.heuristic_rules lu →
        route { cfg with heuristic_rules :=
            cfg.heuristic_rules.filter fun r => !isPureKwRule r }
          messages mr ht hdrs ph = route cfg messages mr ht hdrs ph := by
  constructor
  · exact fun ctx kw hmin hmiss => pure_kw_match_false ctx kw hmin hmiss
  · intro cfg messages mr ht hdrs ph sys lu full hex hmiss
    simp only [route, hex]
    rw [layer_heuristic_drop_kw_rules cfg (routeContext sys lu full mr ht hdrs ph) hmiss]
    rfl

/-- Witness for C5: a keyword-laden system prompt with a keyword-free last
user message does not trigger the reasoning keyword rule. -/
theorem message_keywords_scored_on_last_user_only_witness :
    (1 ≤ ((some 2 : Option Int)).getD 1)
    ∧ match_heuristic
        { system_prompt := "You are expert at proving theorems step by step, use induction"
          last_user_message := "find my file"
          full_text := ""
          total_tokens := 20
          model_requested := "auto"
          has_tools := false
          headers := []
          provider_health := [] }
        ⟨false, none, none, some ⟨["prove", "theorem", "induction"], some 2⟩⟩ = false :=
  ⟨by decide,
   message_keywords_scored_on_last_user_only.1 _ ⟨["prove", "theorem", "induction"], some 2⟩
     (by decide) (by decide)⟩

/-- Claim C6.  The cost formula of `calc_cost`: cache-aware pricing when
either cache counter is non-zero (cache-read rate defaulting to the input
rate), plain prompt pricing otherwise; zero tokens cost zero; and the two
concrete anchors of the spec hold exactly. -/
theorem calc_cost_formula (p c ch cm : ℚ) (pr : Pricing) :
    (ch ≠ 0 ∨ cm ≠ 0 →
      calc_cost p c pr ch cm =
        (ch * pr.cache_read.getD (pr.input.getD 0) + cm * pr.input.getD 0) / 1000000
          + c * pr.output.getD 0 / 1000000)
    ∧ (ch = 0 ∧ cm = 0 →
      calc_cost p c pr ch cm =
        (p * pr.input.getD 0 + c * pr.output.getD 0) / 1000000)
    ∧ calc_cost 0 0 pr 0 0 = 0
    ∧ calc_cost 1000000 1000000 ⟨some (27/100), some (11/10), none⟩ 0 0 = 137/100
    ∧ calc_cost 1000 0 ⟨some (27/100), some (11/10), some (7/100)⟩ 1000 0
        = 7/100000 := by
  refine ⟨fun h => ?_, fun h => ?_, ?_, ?_, ?_⟩
  · simp only [calc_cost]
    rw [if_pos h]
  · simp only [calc_cost]
    rw [if_neg (by push_neg; exact ⟨h.1, h.2⟩)]
    ring
  · norm_num [calc_cost]
  · norm_num [calc_cost]
  · norm_num [calc_cost]

/-- Witness for C6, instantiating the cache-aware branch at the spec's
second anchor. -/
theorem calc_cost_formula_witness :
    calc_cost 1000 0 ⟨some (27/100), some (11/10), some (7/100)⟩ 1000 0 =
      ((1000 : ℚ) * ((7:ℚ)/100) + 0 * ((27:ℚ)/100)) / 1000000
        + 0 * ((11:ℚ)/10) / 1000000 :=
  (calc_cost_formula 1000 0 1000 0 ⟨some (27/100), some (11/10), some (7/100)⟩).1
    (Or.inl (by norm_num))

/-- Claim C7.  With `cache_read < input` and a positive fixed total `T`,
cost is strictly decreasing in the cache-hit share `k` (with
`cache_miss = T - k`) over `0 ≤ k ≤ T`. -/
theorem calc_cost_strict_anti_in_cache_hits (p c T k1 k2 i cr : ℚ)
    (pr : Pricing) (hin : pr.input = some i) (hcr : pr.cache_read = some cr)
    (hlt : cr < i) (hT : 0 < T) (h0 : 0 ≤ k1) (hk : k1 < k2) (_hk2 : k2 ≤ T) :
    calc_cost p c pr k2 (T - k2) < calc_cost p c pr k1 (T - k1) := by
  have hb1 : k1 ≠ 0 ∨ T - k1 ≠ 0 := by
    rcases eq_or_ne k1 0 with h | h
    · right
      rw [h, sub_zero]
      exact hT.ne'
    · exact Or.inl h
  have hb2 : k2 ≠ 0 ∨ T - k2 ≠ 0 := Or.inl (h0.trans_lt hk).ne'
  have key : k2 * cr + (T - k2) * i < k1 * cr + (T - k1) * i := by
    nlinarith [mul_pos (sub_pos.mpr hk) (sub_pos.mpr hlt)]
  simp only [calc_cost, hin, hcr, Option.getD_some]
  rw [if_pos hb2, if_pos hb1]
  have h6 : (0:ℚ) < 1000000 := by norm_num
  exact add_lt_add_right ((div_lt_div_iff_of_pos_right h6).mpr key) _

/-- Witness for C7 at concrete numbers. -/
theorem calc_cost_strict_anti_in_cache_hits_witness :
    calc_cost 0 0 ⟨some 2, some 3, some 1⟩ 5 (10 - 5)
      < calc_cost 0 0 ⟨some 2, some 3, some 1⟩ 2 (10 - 2) :=
  calc_cost_strict_anti_in_cache_hits 0 0 10 2 5 2 1 ⟨some 2, some 3, some 1⟩
    rfl rfl (by norm_num) (by norm_num) (by norm_num) (by norm_num) (by norm_num)

/-- Claim C8.  From the initial state (`healthy=true`,
`consecutive_failures=0`), any sequence of `record_success` /
`record_failure` operations with a fixed threshold `t ≥ 1` preserves the
invariants: failures at or above the threshold imply unhealthy, and the
latency ring never exceeds 20 entries; moreover every `record_success`
sets `healthy=true`, resets `consecutive_failures` to 0 and clears
`last_error`.  (The source always calls `record_failure` with the default
threshold 3.) -/
theorem provider_health_invariants (t : Nat) (nm : String) (ops : List HealthOp)
    (ht : 1 ≤ t) :
    healthInv t (runHealthOps t (initHealth nm) ops)
    ∧ ∀ (h : ProviderHealth) (l n : ℚ),
        (record_success h l n).healthy = true
        ∧ (record_success h l n).consecutive_failures = 0
        ∧ (record_success h l n).last_error = "" := by
  constructor
  · have hrun : ∀ (l : List HealthOp) (h : ProviderHealth), healthInv t h →
        healthInv t (runHealthOps t h l) := by
      intro l
      induction l with
      | nil => exact fun h hh => hh
      | cons op rest ih =>
        intro h hh
        exact ih _ (healthInv_step t ht h op hh)
    refine hrun ops _ ⟨fun hle => ?_, by simp [initHealth]⟩
    exact absurd hle (by simp only [initHealth]; omega)
  · exact fun h l n => ⟨rfl, rfl, rfl⟩

/-- Witness for C8: threshold 3, two failures then a success then three
failures. -/
theorem provider_health_invariants_witness :
    healthInv 3 (runHealthOps 3 (initHealth "deepseek-chat")
      [.failure "boom" 1, .failure "boom" 2, .success 50 3,
       .failure "boom" 4, .failure "boom" 5, .failure "boom" 6]) :=
  (provider_health_invariants 3 "deepseek-chat"
      [.failure "boom" 1, .failure "boom" 2, .success 50 3,
       .failure "boom" 4, .failure "boom" 5, .failure "boom" 6] (by decide)).1

/-- Claim C9, counterexample.  With both bounds present
(`less_than = 10`, `greater_than = 100`) and an estimate of 5, the matcher
fires although the estimate does not satisfy every bound present
(5 is not greater than 100): the bounds are a disjunction, not a
conjunction. -/
theorem estimated_tokens_conjunction_counterexample :
    match_heuristic ⟨"", "", "", 5, "", false, [], []⟩
        ⟨false, none, some ⟨some 10, some 100⟩, none⟩ = true
    ∧ ¬ ((5:Int) > 100) :=
  ⟨rfl, by decide⟩

/-- Claim C9, amended.  An `estimated_tokens` matcher matches exactly when
AT LEAST ONE bound present is satisfied: strictly below `less_than` when
that key is present, OR strictly above `greater_than` when that key is
present (so with both keys present, satisfying either suffices). -/
theorem estimated_tokens_bounds_disjunction (ctx : RoutingContext) (tm : TokMatch) :
    match_heuristic ctx ⟨false, none, some tm, none⟩ = true ↔
      (∃ n, tm.less_than = some n ∧ (ctx.total_tokens : Int) < n)
      ∨ (∃ n, tm.greater_than = some n ∧ (ctx.total_tokens : Int) > n) := by
  obtain ⟨lt, gt⟩ := tm
  cases lt <;> cases gt <;> simp [match_heuristic]

/-- Claim C10.  When no layer produces a decision, `route` returns the
fallback decision — `layer=fallback`, `rule_name=no-match`,
`confidence=0.3`, provider = head of the fallback chain (or the hard-coded
`deepseek-chat`) — WITHOUT health validation: the result is the same for
every provider-health snapshot, including one that marks that provider
unhealthy while other chain members are healthy. -/
theorem fallback_decision_skips_health_validation (cfg : Config)
    (messages : List Msg) (mr : String) (ht : Bool)
    (hdrs : List (String × String)) (ph : List (String × HealthDict))
    (sys lu full : String)
    (hex : extract_text messages = some (sys, lu, full))
    (hstatic : layer_static cfg (routeContext sys lu full mr ht hdrs ph) = none)
    (hheur : layer_heuristic cfg (routeContext sys lu full mr ht hdrs ph) = none) :
    route cfg messages mr ht hdrs ph =
      some { provider_name := cfg.fallback_chain.headD "deepseek-chat"
             layer := "fallback"
             rule_name := "no-match"
             confidence := 0.3
             reason := "No routing layer matched, using first fallback"
             elapsed_ms := 0 } := by
  simp only [route, hex, hstatic, hheur]

/-- Witness for C10: the fallback decision names the chain head `"a"` even
though the snapshot marks `"a"` unhealthy and `"b"` healthy. -/
theorem fallback_decision_skips_health_validation_witness :
    extract_text [⟨some "user", some (.str "hi")⟩] = some ("", "hi", "hi")
    ∧ route ⟨["a", "b"], false, [], false, [], false⟩
        [⟨some "user", some (.str "hi")⟩] "auto" false []
        [("a", [("healthy", false)]), ("b", [("healthy", true)])] =
      some ⟨"a", "fallback", "no-match", 0.3,
            "No routing layer matched, using first fallback", 0⟩ :=
  ⟨rfl,
   fallback_decision_skips_health_validation
     ⟨["a", "b"], false, [], false, [], false⟩
     [⟨some "user", some (.str "hi")⟩] "auto" false []
     [("a", [("healthy", false)]), ("b", [("healthy", true)])]
     "" "hi" "hi" rfl rfl rfl⟩

end ClawGate
